import Mathlib

/-
Verification development for the window-layout engine of the EDB terminal
debugger front end: the pane tree (split / merge / focus navigation /
flatten) and the ScreenManager profile/full-screen layer.

The ScreenManager definitions are translated from
`crates/debug-frontend/src/window/screen.rs` (the current evolution) and
`crates/debug-frontend/src/screen.rs` (the older evolution, for the
refinement comparison).  The pane module (`Pane`, `PaneManager`, flatten,
merge, split, focus navigation) is not part of the provided sources, so it
is modelled from the specification, as marked on each definition.
-/

namespace EDB

/-- Rectangle in terminal cells, mirroring `ratatui::layout::Rect`
(x, y, width, height); machine `u16` values are modelled as `Nat`. -/
structure Rect where
  x : Nat
  y : Nat
  width : Nat
  height : Nat
deriving DecidableEq

/-- Split direction, mirroring `ratatui::layout::Direction`:
`horizontal` lays the two children side by side (divides the width),
`vertical` stacks them (divides the height). -/
inductive Direction where
  | horizontal
  | vertical
deriving DecidableEq

/-- Modelled from the spec: `ViewTag` is an opaque content-kind marker
(e.g. "terminal", "source", "trace") interpreted only by collaborators. -/
inductive PaneView where
  | terminal
  | source
  | trace
deriving DecidableEq

/-- Modelled from the spec: a Pane is a leaf unit holding an id and a view. -/
structure Pane where
  id : Nat
  view : PaneView
deriving DecidableEq

/-- Mouse position, mirroring `Point` with `u16` coordinates. -/
structure Point where
  x : Nat
  y : Nat
deriving DecidableEq

/-- Constructor `Point::new(x, y)`. -/
def Point.new (x y : Nat) : Point := ⟨x, y⟩

/-- Modelled from the spec: a tree node is either a `Pane` (leaf) or a
`Split` with a direction, a positive integer ratio pair `(ra, rb)` and two
children. -/
inductive PaneTree where
  | leaf : Pane → PaneTree
  | split : Direction → Nat → Nat → PaneTree → PaneTree → PaneTree
deriving DecidableEq

/-- Flattened render entry holding id, view, rect and the focused flag. -/
structure PaneFlattened where
  view : PaneView
  id : Nat
  focused : Bool
  rect : Rect
deriving DecidableEq

/-- Modelled from the spec: a PaneManager owns one pane tree, the focus
pointer, the last-known viewport used by directional focus navigation, and
the monotone id supply used by `split`. -/
structure PaneManager where
  tree : PaneTree
  focused : Nat
  viewport : Rect
  nextId : Nat
deriving DecidableEq

/-- Leaves of a tree in depth-first order, first child before second. -/
def PaneTree.leaves : PaneTree → List Pane
  | .leaf p => [p]
  | .split _ _ _ a b => a.leaves ++ b.leaves

/-- First leaf carrying a given id (ids are unique in well-formed trees). -/
def PaneTree.findLeaf (t : PaneTree) (i : Nat) : Option Pane :=
  t.leaves.find? (fun p => p.id == i)

/-- Modelled from the spec: divide a rectangle along a direction in
proportion to the ratio pair, assigning any integer-division remainder to
the second child. -/
def splitRect (d : Direction) (ra rb : Nat) (r : Rect) : Rect × Rect :=
  match d with
  | .horizontal =>
    let w1 := r.width * ra / (ra + rb)
    (⟨r.x, r.y, w1, r.height⟩, ⟨r.x + w1, r.y, r.width - w1, r.height⟩)
  | .vertical =>
    let h1 := r.height * ra / (ra + rb)
    (⟨r.x, r.y, r.width, h1⟩, ⟨r.x, r.y + h1, r.width, r.height - h1⟩)

/-- Modelled from the spec: recursively partition the area top-down; at a
leaf emit one entry with `focused = (id == foc)`; emission order is
depth-first, first child before second. -/
def PaneTree.flattenAux : PaneTree → Rect → Nat → List PaneFlattened
  | .leaf p, r, foc => [⟨p.view, p.id, p.id == foc, r⟩]
  | .split d ra rb a b, r, foc =>
    let rs := splitRect d ra rb r
    a.flattenAux rs.1 foc ++ b.flattenAux rs.2 foc

/-- Modelled from the spec: `PaneManager::get_flattened_layout(area)`. -/
def PaneManager.get_flattened_layout (m : PaneManager) (area : Rect) :
    List PaneFlattened :=
  m.tree.flattenAux area m.focused

/-- Modelled from the spec: `PaneManager::get_focused_pane` resolves the
focus pointer to its leaf. -/
def PaneManager.get_focused_pane (m : PaneManager) : Option Pane :=
  m.tree.findLeaf m.focused

/-- Center of a rectangle's rendered cells. -/
def Rect.center (r : Rect) : Nat × Nat :=
  (r.x + r.width / 2, r.y + r.height / 2)

/-- Absolute difference of naturals. -/
def natDist (a b : Nat) : Nat := max a b - min a b

/-- Squared Euclidean distance between two cell positions. -/
def distSq (p q : Nat × Nat) : Nat :=
  natDist p.1 q.1 * natDist p.1 q.1 + natDist p.2 q.2 * natDist p.2 q.2

/-- The four directional focus commands. -/
inductive FocusDir where
  | up
  | down
  | left
  | right
deriving DecidableEq

/-- The inverse navigation of each direction. -/
def FocusDir.inverse : FocusDir → FocusDir
  | .up => .down
  | .down => .up
  | .left => .right
  | .right => .left

/-- Modelled from the spec: a candidate center lies strictly in the
requested direction from the focused center (e.g. "up" requires
candidate-center.y < focused-center.y). -/
def dirOk (d : FocusDir) (fc c : Nat × Nat) : Bool :=
  match d with
  | .up => c.2 < fc.2
  | .down => fc.2 < c.2
  | .left => c.1 < fc.1
  | .right => fc.1 < c.1

/-- Pick the candidate at minimal squared distance from `fc`; ties keep the
earlier entry, i.e. tree traversal order. -/
def pickNearest (fc : Nat × Nat) : List PaneFlattened → Option PaneFlattened
  | [] => none
  | e :: es =>
    match pickNearest fc es with
    | none => some e
    | some b =>
      if distSq (Rect.center b.rect) fc < distSq (Rect.center e.rect) fc then
        some b
      else
        some e

/-- Modelled from the spec: directional focus navigation computes the
rendered rectangle of every leaf under the manager's last-known viewport,
selects the nearest leaf whose center lies strictly in the requested
direction (ties by Euclidean distance, then traversal order), and is a
no-op when there is no candidate. -/
def PaneManager.focusMove (m : PaneManager) (d : FocusDir) : PaneManager :=
  let entries := m.get_flattened_layout m.viewport
  match entries.find? (fun e => e.id == m.focused) with
  | none => m
  | some fe =>
    let fc := Rect.center fe.rect
    let cands := entries.filter (fun e => dirOk d fc (Rect.center e.rect))
    match pickNearest fc cands with
    | none => m
    | some e => { m with focused := e.id }

/-- Overwrite the view of every leaf carrying id `i` (unique in
well-formed trees). -/
def PaneTree.setView : PaneTree → Nat → PaneView → PaneTree
  | .leaf p, i, v => if p.id == i then .leaf ⟨p.id, v⟩ else .leaf p
  | .split d ra rb a b, i, v => .split d ra rb (a.setView i v) (b.setView i v)

/-- Modelled from the spec: `force_goto(view)` unconditionally sets the
focused leaf's view. -/
def PaneManager.force_goto (m : PaneManager) (v : PaneView) : PaneManager :=
  { m with tree := m.tree.setView m.focused v }

/-- Modelled from the spec: `force_goto_by_view(view)` moves focus to a
leaf already displaying `view` when one exists, else behaves as
`force_goto`. -/
def PaneManager.force_goto_by_view (m : PaneManager) (v : PaneView) :
    PaneManager :=
  match m.tree.leaves.find? (fun p => p.view == v) with
  | some p => { m with focused := p.id }
  | none => m.force_goto v

/-- Modelled from the spec: replace the Split node whose two children are
exactly the leaves `a` and `b` (direct siblings, either order) by a single
leaf retaining `a`'s identity and view; `none` when no such node exists. -/
def PaneTree.mergeAux : PaneTree → Nat → Nat → Option PaneTree
  | .leaf _, _, _ => none
  | .split _ _ _ (.leaf p) (.leaf q), a, b =>
    if (p.id = a ∧ q.id = b) ∨ (p.id = b ∧ q.id = a) then
      some (.leaf (if p.id = a then p else q))
    else
      none
  | .split d ra rb t1 t2, a, b =>
    match t1.mergeAux a b with
    | some t1n => some (.split d ra rb t1n t2)
    | none =>
      match t2.mergeAux a b with
      | some t2n => some (.split d ra rb t1 t2n)
      | none => none

/-- Modelled from the spec: `merge(a, b)` succeeds only on existing direct
sibling leaves, fails `NotFound` on an unknown id and `InvalidMerge`
otherwise, never mutating on failure; focus is retargeted from the
discarded leaf `b` to the surviving leaf `a`. -/
def PaneManager.merge (m : PaneManager) (a b : Nat) :
    Except String PaneManager :=
  if (m.tree.findLeaf a).isNone ∨ (m.tree.findLeaf b).isNone then
    .error "NotFound"
  else
    match m.tree.mergeAux a b with
    | some t =>
      .ok { m with tree := t, focused := if m.focused = b then a else m.focused }
    | none => .error "InvalidMerge"

/-- Replace the leaf carrying id `i` by a Split whose first child keeps the
original pane and whose second child is a fresh leaf with the same view. -/
def PaneTree.splitLeaf : PaneTree → Nat → Direction → Nat → Nat → Nat →
    Option PaneTree
  | .leaf p, i, d, ra, rb, newId =>
    if p.id == i then
      some (.split d ra rb (.leaf p) (.leaf ⟨newId, p.view⟩))
    else
      none
  | .split d0 ra0 rb0 t1 t2, i, d, ra, rb, newId =>
    match t1.splitLeaf i d ra rb newId with
    | some t1n => some (.split d0 ra0 rb0 t1n t2)
    | none =>
      match t2.splitLeaf i d ra rb newId with
      | some t2n => some (.split d0 ra0 rb0 t1 t2n)
      | none => none

/-- Modelled from the spec: `split(id, direction, ra, rb)` replaces the
named leaf, fails `NotFound` on an unknown id, and returns the newly
allocated leaf id drawn from the monotone supply. -/
def PaneManager.split (m : PaneManager) (i : Nat) (d : Direction)
    (ra rb : Nat) : Except String (Nat × PaneManager) :=
  match m.tree.splitLeaf i d ra rb m.nextId with
  | some t => .ok (m.nextId, { m with tree := t, nextId := m.nextId + 1 })
  | none => .error "NotFound"

/-- Modelled from the spec: the small-screen preset factory produces a
single leaf, id 0, displaying the terminal view (spec scenario, section 8),
on an 80 by 24 viewport. -/
def PaneManager.default_small_screen : PaneManager :=
  { tree := .leaf ⟨0, .terminal⟩, focused := 0,
    viewport := ⟨0, 0, 80, 24⟩, nextId := 1 }

/-- Modelled from the spec: the large-screen preset factory; its exact
topology is unspecified, a fixed single terminal leaf consistent with the
preset-factory description is used. -/
def PaneManager.default_large_screen : PaneManager :=
  { tree := .leaf ⟨0, .terminal⟩, focused := 0,
    viewport := ⟨0, 0, 160, 48⟩, nextId := 1 }

/-! ### Association-list model of `HashMap<String, PaneManager>` -/

/-- Lookup in the profile table (`HashMap::get`). -/
def mapLookup (m : List (String × PaneManager)) (k : String) :
    Option PaneManager :=
  (m.find? (fun e => e.1 == k)).map (fun e => e.2)

/-- Insert/overwrite in the profile table (`HashMap::insert`). -/
def mapInsert (m : List (String × PaneManager)) (k : String)
    (v : PaneManager) : List (String × PaneManager) :=
  (k, v) :: m.filter (fun e => !(e.1 == k))

/-! ### ScreenManager, from `window/screen.rs` (current evolution) -/

/-- Constant `SMALL_SCREEN_STR` of `window/screen.rs`. -/
def SMALL_SCREEN_STR : String := "Defualt (Small)"

/-- Constant `LARGE_SCREEN_STR` of `window/screen.rs`. -/
def LARGE_SCREEN_STR : String := "Defualt (Large)"

/-- Structure `ScreenManager` of `window/screen.rs`: profile table, active profile
name, default-pane flag, full-screen flag, and buffered pointer event. -/
structure ScreenManager where
  panes : List (String × PaneManager)
  current_pane : String
  use_default_pane : Bool
  full_screen : Bool
  pending_mouse_move : Option Point
deriving DecidableEq

namespace ScreenManager

/-- Method `ScreenManager::add_pane_manager`. -/
def add_pane_manager (s : ScreenManager) (name : String)
    (manager : PaneManager) : ScreenManager :=
  { s with panes := mapInsert s.panes name manager }

/-- Constructor `ScreenManager::new()`: registers the two built-in profiles and
activates the small one, with `full_screen = false` and no pending
pointer. -/
def new : ScreenManager :=
  let m0 : ScreenManager :=
    { panes := [], current_pane := "", use_default_pane := true,
      full_screen := false, pending_mouse_move := none }
  let m1 := m0.add_pane_manager SMALL_SCREEN_STR PaneManager.default_small_screen
  let m2 := m1.add_pane_manager LARGE_SCREEN_STR PaneManager.default_large_screen
  { m2 with current_pane := SMALL_SCREEN_STR }

/-- Method `ScreenManager::get_current_pane`. -/
def get_current_pane (s : ScreenManager) : Except String PaneManager :=
  match mapLookup s.panes s.current_pane with
  | some pm => .ok pm
  | none => .error "No current pane"

/-- Write-back of a mutation performed through
`ScreenManager::get_current_pane_mut` (a `&mut` borrow of the active
profile's entry in the table). -/
def setCurrentPM (s : ScreenManager) (pm : PaneManager) : ScreenManager :=
  { s with panes := mapInsert s.panes s.current_pane pm }

/-- Method `ScreenManager::get_focused_pane` (read of the focused leaf of the
active profile). -/
def get_focused_pane (s : ScreenManager) : Except String Pane :=
  match mapLookup s.panes s.current_pane with
  | none => .error "No current pane"
  | some pm =>
    match pm.get_focused_pane with
    | none => .error "NotFound"
    | some p => .ok p

/-- Method `ScreenManager::use_default_pane_profile`. -/
def use_default_pane_profile (s : ScreenManager) (b : Bool) : ScreenManager :=
  { s with use_default_pane := b }

/-- Method `ScreenManager::toggle_full_screen`: flips the boolean. -/
def toggle_full_screen (s : ScreenManager) : ScreenManager :=
  { s with full_screen := !s.full_screen }

/-- Method `ScreenManager::set_mouse_move`: ignored in full-screen mode,
otherwise records the pending pointer position. -/
def set_mouse_move (s : ScreenManager) (x y : Nat) : ScreenManager :=
  if s.full_screen then s
  else { s with pending_mouse_move := some (Point.new x y) }

/-- Method `ScreenManager::enter_terminal`: forbidden in full-screen mode, else
`force_goto_by_view(Terminal)` on the active profile.  The returned state
is the post-state even on error. -/
def enter_terminal (s : ScreenManager) : Except String Unit × ScreenManager :=
  if s.full_screen then
    (.error "Cannot enter terminal in full screen mode", s)
  else
    match mapLookup s.panes s.current_pane with
    | none => (.error "No current pane", s)
    | some pm =>
      (.ok (), s.setCurrentPM (pm.force_goto_by_view .terminal))

/-- Method `ScreenManager::set_pane`. -/
def set_pane (s : ScreenManager) (name : String) :
    Except String Unit × ScreenManager :=
  if (mapLookup s.panes name).isSome then
    (.ok (), { s with current_pane := name })
  else
    (.error "No such pane", s)

/-- Method `ScreenManager::set_large_screen`. -/
def set_large_screen (s : ScreenManager) : ScreenManager :=
  { s with current_pane := LARGE_SCREEN_STR }

/-- Method `ScreenManager::set_small_screen`. -/
def set_small_screen (s : ScreenManager) : ScreenManager :=
  { s with current_pane := SMALL_SCREEN_STR }

/-- Methods `ScreenManager::focus_up` / `focus_down` / `focus_left` /
`focus_right`: delegate the directional move to the active profile. -/
def focusDir (s : ScreenManager) (d : FocusDir) :
    Except String Unit × ScreenManager :=
  match mapLookup s.panes s.current_pane with
  | none => (.error "No current pane", s)
  | some pm => (.ok (), s.setCurrentPM (pm.focusMove d))

/-- Method `ScreenManager::split_focused_pane`. -/
def split_focused_pane (s : ScreenManager) (d : Direction) (ra rb : Nat) :
    Except String Nat × ScreenManager :=
  match s.get_focused_pane with
  | .error e => (.error e, s)
  | .ok p =>
    match mapLookup s.panes s.current_pane with
    | none => (.error "No current pane", s)
    | some pm =>
      match pm.split p.id d ra rb with
      | .error e => (.error e, s)
      | .ok r => (.ok r.1, s.setCurrentPM r.2)

/-- Helper for `self.get_current_pane_mut()?.merge(a, b).is_ok()` inside
`close_focused_pane`: a missing active profile propagates as an error, a
failed merge reports `false` and leaves the state unchanged, a successful
merge writes the merged profile back. -/
def mergeInCurrent (s : ScreenManager) (a b : Nat) :
    Except String (Bool × ScreenManager) :=
  match mapLookup s.panes s.current_pane with
  | none => .error "No current pane"
  | some pm =>
    match pm.merge a b with
    | .ok pmn => .ok (true, s.setCurrentPM pmn)
    | .error _ => .ok (false, s)

/-- Method `ScreenManager::close_focused_pane`, translated statement by
statement from `window/screen.rs`: refuse a terminal pane, then probe
left, right, up, down, restoring focus to the original pane between
attempts with an `ensure!` that the restoration landed on it. -/
def close_focused_pane (s0 : ScreenManager) :
    Except String Unit × ScreenManager :=
  match s0.get_focused_pane with
  | .error e => (.error e, s0)
  | .ok pane =>
  if pane.view = PaneView.terminal then
    (.error "Cannot close terminal pane", s0)
  else
  let ori := pane.id
  -- 1) merge left
  match s0.focusDir .left with
  | (.error e, s1) => (.error e, s1)
  | (.ok _, s1) =>
  match s1.get_focused_pane with
  | .error e => (.error e, s1)
  | .ok c1 =>
  match s1.mergeInCurrent ori c1.id with
  | .error e => (.error e, s1)
  | .ok (true, s2) => (.ok (), s2)
  | .ok (false, s2) =>
  -- 2) merge right
  match s2.focusDir .right with
  | (.error e, s3) => (.error e, s3)
  | (.ok _, s3) =>
  match s3.get_focused_pane with
  | .error e => (.error e, s3)
  | .ok b1 =>
  if b1.id = ori then
    match s3.focusDir .right with
    | (.error e, s4) => (.error e, s4)
    | (.ok _, s4) =>
    match s4.get_focused_pane with
    | .error e => (.error e, s4)
    | .ok c2 =>
    match s4.mergeInCurrent ori c2.id with
    | .error e => (.error e, s4)
    | .ok (true, s5) => (.ok (), s5)
    | .ok (false, s5) =>
    -- 3) merge up
    match s5.focusDir .left with
    | (.error e, s6) => (.error e, s6)
    | (.ok _, s6) =>
    match s6.get_focused_pane with
    | .error e => (.error e, s6)
    | .ok b2 =>
    if b2.id = ori then
      match s6.focusDir .up with
      | (.error e, s7) => (.error e, s7)
      | (.ok _, s7) =>
      match s7.get_focused_pane with
      | .error e => (.error e, s7)
      | .ok c3 =>
      match s7.mergeInCurrent ori c3.id with
      | .error e => (.error e, s7)
      | .ok (true, s8) => (.ok (), s8)
      | .ok (false, s8) =>
      -- 4) merge down
      match s8.focusDir .down with
      | (.error e, s9) => (.error e, s9)
      | (.ok _, s9) =>
      match s9.get_focused_pane with
      | .error e => (.error e, s9)
      | .ok b3 =>
      if b3.id = ori then
        match s9.focusDir .down with
        | (.error e, s10) => (.error e, s10)
        | (.ok _, s10) =>
        match s10.get_focused_pane with
        | .error e => (.error e, s10)
        | .ok c4 =>
        match s10.mergeInCurrent ori c4.id with
        | .error e => (.error e, s10)
        | .ok (true, s11) => (.ok (), s11)
        | .ok (false, s11) =>
        match s11.focusDir .up with
        | (.error e, s12) => (.error e, s12)
        | (.ok _, s12) =>
        match s12.get_focused_pane with
        | .error e => (.error e, s12)
        | .ok b4 =>
        if b4.id = ori then
          (.error "Cannot close the last pane", s12)
        else
          (.error "cannot move back to the original pane", s12)
      else
        (.error "cannot move back to the original pane", s9)
    else
      (.error "cannot move back to the original pane", s6)
  else
    (.error "cannot move back to the original pane", s3)

/-- Method `ScreenManager::get_flattened_layout`: full-screen short-circuit to a
single focused entry covering the whole area, else delegation to the
active profile. -/
def get_flattened_layout (s : ScreenManager) (app : Rect) :
    Except String (List PaneFlattened) :=
  if s.full_screen then
    match s.get_current_pane with
    | .error e => .error e
    | .ok pm =>
      match pm.get_focused_pane with
      | none => .error "NotFound"
      | some pane => .ok [⟨pane.view, pane.id, true, app⟩]
  else
    match s.get_current_pane with
    | .error e => .error e
    | .ok pm => .ok (pm.get_flattened_layout app)

end ScreenManager

/-! ### The close procedure as the specification describes it -/

/-- Outcome of one directional merge attempt: a propagated error, a
successful merge, or a failed merge. -/
inductive AttemptOut where
  | fatal : String → ScreenManager → AttemptOut
  | merged : ScreenManager → AttemptOut
  | failed : ScreenManager → AttemptOut

/-- One attempt as the specification describes it: move focus one step in
the direction, then attempt `merge(origin, currently-focused-id)`. -/
def ScreenManager.claimAttempt (s : ScreenManager) (ori : Nat)
    (d : FocusDir) : AttemptOut :=
  match s.focusDir d with
  | (.error e, s1) => .fatal e s1
  | (.ok _, s1) =>
    match s1.get_focused_pane with
    | .error e => .fatal e s1
    | .ok c =>
      match s1.mergeInCurrent ori c.id with
      | .error e => .fatal e s1
      | .ok (true, s2) => .merged s2
      | .ok (false, s2) => .failed s2

/-- Restoration as the specification describes it: navigate by the inverse
of the attempted direction and assert that focus lands exactly on the
origin pane. -/
def ScreenManager.claimRestore (s : ScreenManager) (ori : Nat)
    (d : FocusDir) : Except String Unit × ScreenManager :=
  match s.focusDir d.inverse with
  | (.error e, s1) => (.error e, s1)
  | (.ok _, s1) =>
    match s1.get_focused_pane with
    | .error e => (.error e, s1)
    | .ok p =>
      if p.id = ori then (.ok (), s1)
      else (.error "cannot move back to the original pane", s1)

/-- The probe loop as the specification describes it: attempt each
direction in order, the first successful merge ends the procedure, each
failed attempt is followed by the asserted restoration, and exhausting the
list fails with "cannot close the last pane". -/
def ScreenManager.closeLoop (ori : Nat) :
    ScreenManager → List FocusDir → Except String Unit × ScreenManager
  | s, [] => (.error "Cannot close the last pane", s)
  | s, d :: rest =>
    match s.claimAttempt ori d with
    | .fatal e s1 => (.error e, s1)
    | .merged s1 => (.ok (), s1)
    | .failed s1 =>
      match s1.claimRestore ori d with
      | (.error e, s2) => (.error e, s2)
      | (.ok _, s2) => closeLoop ori s2 rest

/-- The manager state carried by an attempt outcome. -/
def attemptState : AttemptOut → ScreenManager
  | .fatal _ s => s
  | .merged s => s
  | .failed s => s

/-! ### Reachability, invariant predicates, and geometric predicates -/

/-- One public mutating operation of `ScreenManager`, as delivered by the
external event loop. -/
inductive Step : ScreenManager → ScreenManager → Prop where
  | use_default (s : ScreenManager) (b : Bool) :
      Step s (s.use_default_pane_profile b)
  | add (s : ScreenManager) (n : String) (pm : PaneManager) :
      Step s (s.add_pane_manager n pm)
  | toggle (s : ScreenManager) : Step s s.toggle_full_screen
  | mouse (s : ScreenManager) (x y : Nat) : Step s (s.set_mouse_move x y)
  | enter (s : ScreenManager) : Step s s.enter_terminal.2
  | setp (s : ScreenManager) (n : String) : Step s (s.set_pane n).2
  | large (s : ScreenManager) : Step s s.set_large_screen
  | small (s : ScreenManager) : Step s s.set_small_screen
  | focus (s : ScreenManager) (d : FocusDir) : Step s (s.focusDir d).2
  | splitp (s : ScreenManager) (d : Direction) (ra rb : Nat) :
      Step s (s.split_focused_pane d ra rb).2
  | close (s : ScreenManager) : Step s s.close_focused_pane.2

/-- States reachable from `ScreenManager::new()` by the public
operations. -/
inductive Reachable : ScreenManager → Prop where
  | base : Reachable ScreenManager.new
  | step {s t : ScreenManager} : Reachable s → Step s t → Reachable t

/-- Two manager states that agree on the active-profile name, the mode
fields, and on which profile names are present in the table. -/
def ModeEq (a b : ScreenManager) : Prop :=
  a.current_pane = b.current_pane ∧
  a.full_screen = b.full_screen ∧
  a.use_default_pane = b.use_default_pane ∧
  a.pending_mouse_move = b.pending_mouse_move ∧
  ∀ k, (mapLookup a.panes k).isSome = (mapLookup b.panes k).isSome

/-- The profile-table invariant: the two built-in profiles are registered
and the active name resolves. -/
def Inv (s : ScreenManager) : Prop :=
  (mapLookup s.panes SMALL_SCREEN_STR).isSome ∧
  (mapLookup s.panes LARGE_SCREEN_STR).isSome ∧
  (mapLookup s.panes s.current_pane).isSome

/-- A terminal cell (i, j) lies inside a rectangle. -/
def Rect.contains (r : Rect) (i j : Nat) : Prop :=
  r.x ≤ i ∧ i < r.x + r.width ∧ r.y ≤ j ∧ j < r.y + r.height

/-- Two flattened entries whose rectangles share no cell. -/
def EntryDisjoint (e1 e2 : PaneFlattened) : Prop :=
  ∀ i j, ¬(e1.rect.contains i j ∧ e2.rect.contains i j)

/-- Well-formedness of a pane manager: leaf ids are unique and the focus
pointer resolves to a leaf. -/
def PaneManager.WF (m : PaneManager) : Prop :=
  (m.tree.leaves.map Pane.id).Nodup ∧ (m.tree.findLeaf m.focused).isSome

/-- A two-leaf profile whose focused leaf displays the source view, for
concrete instantiations. -/
def pmTwo : PaneManager :=
  { tree := .split .horizontal 1 1 (.leaf ⟨0, .terminal⟩) (.leaf ⟨1, .source⟩),
    focused := 1, viewport := ⟨0, 0, 80, 24⟩, nextId := 2 }

/-- A screen state whose active profile is `pmTwo`, for concrete
instantiations. -/
def smTwo : ScreenManager :=
  { panes := [(SMALL_SCREEN_STR, pmTwo)], current_pane := SMALL_SCREEN_STR,
    use_default_pane := true, full_screen := false,
    pending_mouse_move := none }

/-- The state `smTwo` switched to full-screen mode. -/
def smTwoFS : ScreenManager := { smTwo with full_screen := true }

/-! ### ScreenManager of `screen.rs` (older evolution), for refinement -/

/-- Enum `TerminalMode` of `screen.rs`. -/
inductive TerminalMode where
  | normal
  | insert
deriving DecidableEq

/-- Enum `FocusMode` of `screen.rs`. -/
inductive FocusMode where
  | entered
  | browse
  | fullScreen
deriving DecidableEq

/-- Structure `ScreenManager` of `screen.rs`: the older evolution, with a
three-state focus mode instead of the boolean full-screen flag. -/
structure OldScreenManager where
  panes : List (String × PaneManager)
  current_pane : String
  use_default_pane : Bool
  terminal_mode : TerminalMode
  focus_mode : FocusMode
deriving DecidableEq

/-- Method `ScreenManager::get_current_pane` of `screen.rs`. -/
def OldScreenManager.get_current_pane (s : OldScreenManager) :
    Except String PaneManager :=
  match mapLookup s.panes s.current_pane with
  | some pm => .ok pm
  | none => .error "No current pane"

/-- Method `ScreenManager::get_flattened_layout` of `screen.rs`: the full-screen
short-circuit is guarded by `focus_mode == FullScreen`. -/
def OldScreenManager.get_flattened_layout (s : OldScreenManager)
    (app : Rect) : Except String (List PaneFlattened) :=
  if s.focus_mode = FocusMode.fullScreen then
    match s.get_current_pane with
    | .error e => .error e
    | .ok pm =>
      match pm.get_focused_pane with
      | none => .error "NotFound"
      | some pane => .ok [⟨pane.view, pane.id, true, app⟩]
  else
    match s.get_current_pane with
    | .error e => .error e
    | .ok pm => .ok (pm.get_flattened_layout app)

end EDB

namespace EDB

theorem find_key_filter (m : List (String × PaneManager)) (k kp : String)
    (h : ¬ kp = k) :
    List.find? (fun e => e.1 == kp) (List.filter (fun e => !(e.1 == k)) m) =
      List.find? (fun e => e.1 == kp) m := by
  induction m with
  | nil => rfl
  | cons e t ih =>
    by_cases he : e.1 = k
    · have h1 : (e.1 == k) = true := by simp [he]
      have h2 : (e.1 == kp) = false := by
        simp only [beq_eq_false_iff_ne, ne_eq, he]
        exact fun hc => h hc.symm
      simp [List.filter_cons, h1, List.find?_cons, h2, ih]
    · have h1 : (e.1 == k) = false := by simp [he]
      cases hp : (e.1 == kp) with
      | true => simp [List.filter_cons, h1, List.find?_cons, hp]
      | false => simp [List.filter_cons, h1, List.find?_cons, hp, ih]

theorem mapLookup_insert (m : List (String × PaneManager)) (k kp : String)
    (v : PaneManager) :
    mapLookup (mapInsert m k v) kp =
      if kp = k then some v else mapLookup m kp := by
  unfold mapInsert mapLookup
  by_cases h : kp = k
  · subst h
    simp [List.find?_cons]
  · rw [if_neg h]
    have h2 : (k == kp) = false := by
      simp only [beq_eq_false_iff_ne, ne_eq]
      exact fun hc => h hc.symm
    simp [List.find?_cons, h2, find_key_filter m k kp h]

end EDB

namespace EDB

theorem modeEq_refl (s : ScreenManager) : ModeEq s s :=
  ⟨rfl, rfl, rfl, rfl, fun _ => rfl⟩

theorem modeEq_trans {a b c : ScreenManager} (h1 : ModeEq a b)
    (h2 : ModeEq b c) : ModeEq a c := by
  obtain ⟨p1, p2, p3, p4, p5⟩ := h1
  obtain ⟨q1, q2, q3, q4, q5⟩ := h2
  exact ⟨p1.trans q1, p2.trans q2, p3.trans q3, p4.trans q4,
    fun k => (p5 k).trans (q5 k)⟩

theorem modeEq_setCurrentPM (s : ScreenManager) (pm : PaneManager)
    (h : (mapLookup s.panes s.current_pane).isSome = true) :
    ModeEq (s.setCurrentPM pm) s := by
  refine ⟨rfl, rfl, rfl, rfl, fun k => ?_⟩
  show (mapLookup (mapInsert s.panes s.current_pane pm) k).isSome = _
  rw [mapLookup_insert]
  by_cases hk : k = s.current_pane
  · rw [if_pos hk, hk, h]
    rfl
  · rw [if_neg hk]

theorem focusDir_modeEq (s : ScreenManager) (d : FocusDir) :
    ModeEq (s.focusDir d).2 s := by
  unfold ScreenManager.focusDir
  cases hl : mapLookup s.panes s.current_pane with
  | none => exact modeEq_refl s
  | some pm => exact modeEq_setCurrentPM s (pm.focusMove d) (by rw [hl]; rfl)

theorem mergeInCurrent_modeEq (s : ScreenManager) (a b : Nat) (bb : Bool)
    (sp : ScreenManager) (h : s.mergeInCurrent a b = .ok (bb, sp)) :
    ModeEq sp s := by
  unfold ScreenManager.mergeInCurrent at h
  cases hl : mapLookup s.panes s.current_pane with
  | none => rw [hl] at h; cases h
  | some pm =>
    simp only [hl] at h
    cases hm : pm.merge a b with
    | ok pmn =>
      simp only [hm] at h
      cases h
      exact modeEq_setCurrentPM s pmn (by rw [hl]; rfl)
    | error e =>
      simp only [hm] at h
      cases h
      exact modeEq_refl s

theorem claimAttempt_modeEq (s : ScreenManager) (ori : Nat) (d : FocusDir) :
    ModeEq (attemptState (s.claimAttempt ori d)) s := by
  unfold ScreenManager.claimAttempt
  rcases h1 : s.focusDir d with ⟨r1, s1⟩
  have m1 : ModeEq s1 s := by
    have := focusDir_modeEq s d
    rw [h1] at this
    exact this
  cases r1 with
  | error e => exact m1
  | ok u =>
    dsimp only
    cases h2 : s1.get_focused_pane with
    | error e => exact m1
    | ok c =>
      dsimp only
      cases h3 : s1.mergeInCurrent ori c.id with
      | error e => exact m1
      | ok pr =>
        rcases pr with ⟨bb, s2⟩
        have m2 : ModeEq s2 s1 := mergeInCurrent_modeEq s1 ori c.id bb s2 h3
        cases bb
        · exact modeEq_trans m2 m1
        · exact modeEq_trans m2 m1

theorem claimRestore_modeEq (s : ScreenManager) (ori : Nat) (d : FocusDir) :
    ModeEq (s.claimRestore ori d).2 s := by
  unfold ScreenManager.claimRestore
  rcases h1 : s.focusDir d.inverse with ⟨r1, s1⟩
  have m1 : ModeEq s1 s := by
    have := focusDir_modeEq s d.inverse
    rw [h1] at this
    exact this
  cases r1 with
  | error e => exact m1
  | ok u =>
    dsimp only
    cases h2 : s1.get_focused_pane with
    | error e => exact m1
    | ok p =>
      dsimp only
      by_cases hp : p.id = ori
      · rw [if_pos hp]
        exact m1
      · rw [if_neg hp]
        exact m1

theorem closeLoop_modeEq (dirs : List FocusDir) :
    ∀ (ori : Nat) (s : ScreenManager),
      ModeEq (ScreenManager.closeLoop ori s dirs).2 s := by
  induction dirs with
  | nil => intro ori s; exact modeEq_refl s
  | cons d rest ih =>
    intro ori s
    unfold ScreenManager.closeLoop
    cases ha : s.claimAttempt ori d with
    | fatal e s1 =>
      have := claimAttempt_modeEq s ori d
      rw [ha] at this
      exact this
    | merged s1 =>
      have := claimAttempt_modeEq s ori d
      rw [ha] at this
      exact this
    | failed s1 =>
      have m1 : ModeEq s1 s := by
        have := claimAttempt_modeEq s ori d
        rw [ha] at this
        exact this
      dsimp only
      rcases hr : s1.claimRestore ori d with ⟨rr, s2⟩
      have m2 : ModeEq s2 s1 := by
        have := claimRestore_modeEq s1 ori d
        rw [hr] at this
        exact this
      cases rr with
      | error e => exact modeEq_trans m2 m1
      | ok u => exact modeEq_trans (ih ori s2) (modeEq_trans m2 m1)

theorem enter_terminal_modeEq (s : ScreenManager) :
    ModeEq s.enter_terminal.2 s := by
  unfold ScreenManager.enter_terminal
  by_cases hf : s.full_screen
  · rw [if_pos hf]
    exact modeEq_refl s
  · rw [if_neg hf]
    cases hl : mapLookup s.panes s.current_pane with
    | none => exact modeEq_refl s
    | some pm =>
      exact modeEq_setCurrentPM s (pm.force_goto_by_view .terminal)
        (by rw [hl]; rfl)

theorem split_focused_pane_modeEq (s : ScreenManager) (d : Direction)
    (ra rb : Nat) : ModeEq (s.split_focused_pane d ra rb).2 s := by
  unfold ScreenManager.split_focused_pane
  cases hf : s.get_focused_pane with
  | error e => exact modeEq_refl s
  | ok p =>
    dsimp only
    cases hl : mapLookup s.panes s.current_pane with
    | none => exact modeEq_refl s
    | some pm =>
      dsimp only
      cases hs : pm.split p.id d ra rb with
      | error e => exact modeEq_refl s
      | ok r => exact modeEq_setCurrentPM s r.2 (by rw [hl]; rfl)

theorem close_eq_loop (s : ScreenManager) (p : Pane)
    (hfoc : s.get_focused_pane = Except.ok p)
    (hv : p.view ≠ PaneView.terminal) :
    s.close_focused_pane =
      ScreenManager.closeLoop p.id s
        [FocusDir.left, FocusDir.right, FocusDir.up, FocusDir.down] := by
  unfold ScreenManager.close_focused_pane
  rw [hfoc]
  dsimp only
  rw [if_neg hv]
  simp only [ScreenManager.closeLoop, ScreenManager.claimAttempt,
    ScreenManager.claimRestore, FocusDir.inverse]
  rcases h1 : s.focusDir FocusDir.left with ⟨e1 | u1, s1⟩ <;>
    (try simp only [h1]) <;> (try rfl)
  rcases h2 : s1.get_focused_pane with e2 | c1 <;>
    (try simp only [h2]) <;> (try rfl)
  rcases h3 : s1.mergeInCurrent p.id c1.id with e3 | ⟨_ | _, s2⟩ <;>
    (try simp only [h3]) <;> (try rfl)
  rcases h4 : s2.focusDir FocusDir.right with ⟨e4 | u4, s3⟩ <;>
    (try simp only [h4]) <;> (try rfl)
  rcases h5 : s3.get_focused_pane with e5 | b1 <;>
    (try simp only [h5]) <;> (try rfl)
  by_cases h6 : b1.id = p.id
  case neg => simp only [if_neg h6]
  simp only [if_pos h6]
  rcases h7 : s3.focusDir FocusDir.right with ⟨e7 | u7, s4⟩ <;>
    (try simp only [h7]) <;> (try rfl)
  rcases h8 : s4.get_focused_pane with e8 | c2 <;>
    (try simp only [h8]) <;> (try rfl)
  rcases h9 : s4.mergeInCurrent p.id c2.id with e9 | ⟨_ | _, s5⟩ <;>
    (try simp only [h9]) <;> (try rfl)
  rcases h10 : s5.focusDir FocusDir.left with ⟨e10 | u10, s6⟩ <;>
    (try simp only [h10]) <;> (try rfl)
  rcases h11 : s6.get_focused_pane with e11 | b2 <;>
    (try simp only [h11]) <;> (try rfl)
  by_cases h12 : b2.id = p.id
  case neg => simp only [if_neg h12]
  simp only [if_pos h12]
  rcases h13 : s6.focusDir FocusDir.up with ⟨e13 | u13, s7⟩ <;>
    (try simp only [h13]) <;> (try rfl)
  rcases h14 : s7.get_focused_pane with e14 | c3 <;>
    (try simp only [h14]) <;> (try rfl)
  rcases h15 : s7.mergeInCurrent p.id c3.id with e15 | ⟨_ | _, s8⟩ <;>
    (try simp only [h15]) <;> (try rfl)
  rcases h16 : s8.focusDir FocusDir.down with ⟨e16 | u16, s9⟩ <;>
    (try simp only [h16]) <;> (try rfl)
  rcases h17 : s9.get_focused_pane with e17 | b3 <;>
    (try simp only [h17]) <;> (try rfl)
  by_cases h18 : b3.id = p.id
  case neg => simp only [if_neg h18]
  simp only [if_pos h18]
  rcases h19 : s9.focusDir FocusDir.down with ⟨e19 | u19, s10⟩ <;>
    (try simp only [h19]) <;> (try rfl)
  rcases h20 : s10.get_focused_pane with e20 | c4 <;>
    (try simp only [h20]) <;> (try rfl)
  rcases h21 : s10.mergeInCurrent p.id c4.id with e21 | ⟨_ | _, s11⟩ <;>
    (try simp only [h21]) <;> (try rfl)
  rcases h22 : s11.focusDir FocusDir.up with ⟨e22 | u22, s12⟩ <;>
    (try simp only [h22]) <;> (try rfl)
  rcases h23 : s12.get_focused_pane with e23 | b4 <;>
    (try simp only [h23]) <;> (try rfl)
  by_cases h24 : b4.id = p.id
  case neg => simp only [if_neg h24]
  simp only [if_pos h24]

theorem close_modeEq (s : ScreenManager) :
    ModeEq s.close_focused_pane.2 s := by
  cases hf : s.get_focused_pane with
  | error e =>
    unfold ScreenManager.close_focused_pane
    rw [hf]
    exact modeEq_refl s
  | ok p =>
    by_cases hv : p.view = PaneView.terminal
    · unfold ScreenManager.close_focused_pane
      rw [hf]
      dsimp only
      rw [if_pos hv]
      exact modeEq_refl s
    · rw [close_eq_loop s p hf hv]
      exact closeLoop_modeEq _ p.id s

theorem inv_modeEq {a b : ScreenManager} (h : ModeEq a b) (hb : Inv b) :
    Inv a := by
  obtain ⟨c1, _, _, _, keys⟩ := h
  obtain ⟨i1, i2, i3⟩ := hb
  refine ⟨(keys _).trans i1, (keys _).trans i2, ?_⟩
  rw [c1]
  exact (keys _).trans i3

theorem inv_new : Inv ScreenManager.new := by
  refine ⟨?_, ?_, ?_⟩ <;> rfl

theorem step_inv {s t : ScreenManager} (hst : Step s t) (hs : Inv s) :
    Inv t := by
  cases hst with
  | use_default b => exact hs
  | add n pm =>
    obtain ⟨i1, i2, i3⟩ := hs
    refine ⟨?_, ?_, ?_⟩ <;>
      · show (mapLookup (mapInsert s.panes n pm) _).isSome = true
        rw [mapLookup_insert]
        split
        · rfl
        · first
          | exact i1
          | exact i2
          | exact i3
  | toggle => exact hs
  | mouse x y =>
    unfold ScreenManager.set_mouse_move
    split
    · exact hs
    · exact hs
  | enter => exact inv_modeEq (enter_terminal_modeEq s) hs
  | setp n =>
    unfold ScreenManager.set_pane
    split
    · exact ⟨hs.1, hs.2.1, by assumption⟩
    · exact hs
  | large => exact ⟨hs.1, hs.2.1, hs.2.1⟩
  | small => exact ⟨hs.1, hs.2.1, hs.1⟩
  | focus d => exact inv_modeEq (focusDir_modeEq s d) hs
  | splitp d ra rb => exact inv_modeEq (split_focused_pane_modeEq s d ra rb) hs
  | close => exact inv_modeEq (close_modeEq s) hs

theorem reachable_inv {s : ScreenManager} (h : Reachable s) : Inv s := by
  induction h with
  | base => exact inv_new
  | step hr hs ih => exact step_inv hs ih

theorem step_pending {s t : ScreenManager} (hst : Step s t)
    (hf : s.full_screen = true) :
    t.pending_mouse_move = s.pending_mouse_move := by
  cases hst with
  | use_default b => rfl
  | add n pm => rfl
  | toggle => rfl
  | mouse x y =>
    unfold ScreenManager.set_mouse_move
    rw [if_pos hf]
  | enter => exact (enter_terminal_modeEq s).2.2.2.1
  | setp n =>
    unfold ScreenManager.set_pane
    split
    · rfl
    · rfl
  | large => rfl
  | small => rfl
  | focus d => exact (focusDir_modeEq s d).2.2.2.1
  | splitp d ra rb => exact (split_focused_pane_modeEq s d ra rb).2.2.2.1
  | close => exact (close_modeEq s).2.2.2.1

/-- C1: for every ScreenManager state whose focused leaf does not display
the terminal view, close_focused_pane performs exactly the probe procedure
the specification describes: attempts in the fixed order left, right, up,
down, each attempt moving focus one step and trying
merge(origin, focused-id), each subsequent attempt preceded by the inverse
navigation back to the origin with an assertion that it lands there, the
first successful merge ending with success, and exhaustion restoring focus
to the origin and failing Unmergeable. -/
theorem C1_close_focused_pane_probe_order (s : ScreenManager) (p : Pane)
    (hfoc : s.get_focused_pane = Except.ok p)
    (hv : p.view ≠ PaneView.terminal) :
    s.close_focused_pane =
      ScreenManager.closeLoop p.id s
        [FocusDir.left, FocusDir.right, FocusDir.up, FocusDir.down] :=
  close_eq_loop s p hfoc hv

/-- Witness for C1 at a concrete two-pane state focused on a source
pane. -/
theorem C1_close_focused_pane_probe_order_witness :
    smTwo.close_focused_pane =
      ScreenManager.closeLoop 1 smTwo
        [FocusDir.left, FocusDir.right, FocusDir.up, FocusDir.down] :=
  C1_close_focused_pane_probe_order smTwo ⟨1, PaneView.source⟩ rfl
    (by decide)

/-- C2: whenever the focused leaf of the active profile displays the
terminal view, close_focused_pane fails with the terminal-pane error and
returns the state completely unchanged, regardless of how many sibling
panes exist. -/
theorem C2_close_terminal_pane_rejected (s : ScreenManager) (p : Pane)
    (hfoc : s.get_focused_pane = Except.ok p)
    (hv : p.view = PaneView.terminal) :
    s.close_focused_pane = (Except.error "Cannot close terminal pane", s) := by
  unfold ScreenManager.close_focused_pane
  rw [hfoc]
  dsimp only
  rw [if_pos hv]

/-- Witness for C2 at the freshly constructed manager, whose focused leaf
is the terminal pane. -/
theorem C2_close_terminal_pane_rejected_witness :
    ScreenManager.new.close_focused_pane =
      (Except.error "Cannot close terminal pane", ScreenManager.new) :=
  C2_close_terminal_pane_rejected ScreenManager.new ⟨0, PaneView.terminal⟩
    rfl rfl

/-- C3: with full_screen set, get_flattened_layout returns the single
entry covering the whole area carrying the focused leaf's id and view with
the focused flag set, for every tree shape; with full_screen unset it
returns exactly the active profile's flattened layout. -/
theorem C3_flatten_full_screen_short_circuit (s : ScreenManager)
    (area : Rect) :
    (s.full_screen = true →
      ∀ pm p, mapLookup s.panes s.current_pane = some pm →
        pm.get_focused_pane = some p →
        s.get_flattened_layout area = Except.ok [⟨p.view, p.id, true, area⟩]) ∧
    (s.full_screen = false →
      ∀ pm, mapLookup s.panes s.current_pane = some pm →
        s.get_flattened_layout area =
          Except.ok (pm.get_flattened_layout area)) := by
  constructor
  · intro hf pm p hl hp
    unfold ScreenManager.get_flattened_layout
    rw [if_pos hf]
    unfold ScreenManager.get_current_pane
    rw [hl]
    dsimp only
    rw [hp]
  · intro hf pm hl
    unfold ScreenManager.get_flattened_layout
    rw [if_neg (by rw [hf]; exact Bool.false_ne_true)]
    unfold ScreenManager.get_current_pane
    rw [hl]

/-- Witness for C3 at a full-screen two-pane state. -/
theorem C3_flatten_full_screen_short_circuit_witness :
    smTwoFS.get_flattened_layout ⟨0, 0, 80, 24⟩ =
      Except.ok [⟨PaneView.source, 1, true, ⟨0, 0, 80, 24⟩⟩] :=
  (C3_flatten_full_screen_short_circuit smTwoFS ⟨0, 0, 80, 24⟩).1 rfl
    pmTwo ⟨1, PaneView.source⟩ rfl rfl

/-- C4: toggle_full_screen is a total involution: two consecutive calls
restore the entire state (hence also every later flatten result), and a
single call flips the boolean leaving every other field unchanged. -/
theorem C4_toggle_full_screen_involution (s : ScreenManager) (area : Rect) :
    s.toggle_full_screen.toggle_full_screen = s ∧
    s.toggle_full_screen.full_screen = !s.full_screen ∧
    s.toggle_full_screen.panes = s.panes ∧
    s.toggle_full_screen.current_pane = s.current_pane ∧
    s.toggle_full_screen.use_default_pane = s.use_default_pane ∧
    s.toggle_full_screen.pending_mouse_move = s.pending_mouse_move ∧
    s.toggle_full_screen.toggle_full_screen.get_flattened_layout area =
      s.get_flattened_layout area := by
  have h : s.toggle_full_screen.toggle_full_screen = s := by
    unfold ScreenManager.toggle_full_screen
    simp [Bool.not_not]
  exact ⟨h, rfl, rfl, rfl, rfl, rfl, by rw [h]⟩

/-- C5: set_mouse_move is a no-op in full-screen mode; otherwise it
overwrites the pending pointer with the new coordinates and changes
nothing else. -/
theorem C5_set_mouse_move_behavior (s : ScreenManager) (x y : Nat) :
    (s.full_screen = true → s.set_mouse_move x y = s) ∧
    (s.full_screen = false →
      (s.set_mouse_move x y).pending_mouse_move = some (Point.new x y) ∧
      (s.set_mouse_move x y).panes = s.panes ∧
      (s.set_mouse_move x y).current_pane = s.current_pane ∧
      (s.set_mouse_move x y).use_default_pane = s.use_default_pane ∧
      (s.set_mouse_move x y).full_screen = s.full_screen) := by
  constructor
  · intro hf
    unfold ScreenManager.set_mouse_move
    rw [if_pos hf]
  · intro hf
    unfold ScreenManager.set_mouse_move
    rw [if_neg (by rw [hf]; exact Bool.false_ne_true)]
    exact ⟨rfl, rfl, rfl, rfl, rfl⟩

/-- Witness for C5 at a non-full-screen state. -/
theorem C5_set_mouse_move_behavior_witness :
    (smTwo.set_mouse_move 3 4).pending_mouse_move = some (Point.new 3 4) :=
  ((C5_set_mouse_move_behavior smTwo 3 4).2 rfl).1

/-- C6 counterexample: a reachable state (construct, move the mouse, then
toggle full screen) has full_screen true while pending_mouse_move still
holds the previously recorded position, so full-screen states do not have
the pending pointer cleared. -/
theorem C6_pending_cleared_counterexample :
    Reachable (ScreenManager.new.set_mouse_move 1 2).toggle_full_screen ∧
    (ScreenManager.new.set_mouse_move 1 2).toggle_full_screen.full_screen =
      true ∧
    (ScreenManager.new.set_mouse_move 1 2).toggle_full_screen.pending_mouse_move =
      some (Point.new 1 2) :=
  ⟨Reachable.step
      (Reachable.step Reachable.base (Step.mouse ScreenManager.new 1 2))
      (Step.toggle (ScreenManager.new.set_mouse_move 1 2)),
    rfl, rfl⟩

/-- C6 (amended): no public operation stores a pointer position while
full_screen is true — every step taken from a full-screen state leaves
pending_mouse_move unchanged (toggle_full_screen in particular preserves
it rather than clearing it). -/
theorem C6_no_pointer_stored_in_full_screen (s t : ScreenManager)
    (hst : Step s t) (hf : s.full_screen = true) :
    t.pending_mouse_move = s.pending_mouse_move :=
  step_pending hst hf

/-- Witness for the amended C6: toggling out of a full-screen state keeps
the pending pointer. -/
theorem C6_no_pointer_stored_in_full_screen_witness :
    smTwoFS.toggle_full_screen.pending_mouse_move =
      smTwoFS.pending_mouse_move :=
  C6_no_pointer_stored_in_full_screen smTwoFS smTwoFS.toggle_full_screen
    (Step.toggle smTwoFS) rfl

/-- C9: in every state reachable from construction by public operations,
the active profile name resolves in the table, so get_current_pane never
returns the "No current pane" error. -/
theorem C9_current_pane_always_resolves (s : ScreenManager)
    (h : Reachable s) :
    ∃ pm, s.get_current_pane = Except.ok pm := by
  have hi := reachable_inv h
  obtain ⟨_, _, i3⟩ := hi
  unfold ScreenManager.get_current_pane
  cases hl : mapLookup s.panes s.current_pane with
  | none =>
    rw [hl] at i3
    exact absurd i3 (by decide)
  | some pm => exact ⟨pm, rfl⟩

/-- Witness for C9 at the freshly constructed manager. -/
theorem C9_current_pane_always_resolves_witness :
    ∃ pm, ScreenManager.new.get_current_pane = Except.ok pm :=
  C9_current_pane_always_resolves ScreenManager.new Reachable.base

/-- C10: the two evolutions of get_flattened_layout agree whenever the
boolean flag of the newer one is set exactly when the older one's focus
mode is FullScreen, for equal profile tables, active names, and areas. -/
theorem C10_flatten_refinement (panes : List (String × PaneManager))
    (cur : String) (un uo : Bool) (b : Bool) (pend : Option Point)
    (tm : TerminalMode) (m : FocusMode) (area : Rect)
    (h : b = true ↔ m = FocusMode.fullScreen) :
    ScreenManager.get_flattened_layout ⟨panes, cur, un, b, pend⟩ area =
      OldScreenManager.get_flattened_layout ⟨panes, cur, uo, tm, m⟩ area := by
  unfold ScreenManager.get_flattened_layout
    OldScreenManager.get_flattened_layout
  unfold ScreenManager.get_current_pane OldScreenManager.get_current_pane
  cases b with
  | true =>
    rw [if_pos (show (true : Bool) = true from rfl), if_pos (h.mp rfl)]
  | false =>
    have hm : ¬ m = FocusMode.fullScreen := fun hc =>
      Bool.false_ne_true (h.mpr hc)
    rw [if_neg (show ¬ (false : Bool) = true from Bool.false_ne_true),
      if_neg hm]

/-- Witness for C10 at a concrete full-screen pair of states. -/
theorem C10_flatten_refinement_witness :
    ScreenManager.get_flattened_layout
        ⟨[(SMALL_SCREEN_STR, pmTwo)], SMALL_SCREEN_STR, true, true, none⟩
        ⟨0, 0, 80, 24⟩ =
      OldScreenManager.get_flattened_layout
        ⟨[(SMALL_SCREEN_STR, pmTwo)], SMALL_SCREEN_STR, true,
          TerminalMode.normal, FocusMode.fullScreen⟩
        ⟨0, 0, 80, 24⟩ :=
  C10_flatten_refinement [(SMALL_SCREEN_STR, pmTwo)] SMALL_SCREEN_STR
    true true true none TerminalMode.normal FocusMode.fullScreen
    ⟨0, 0, 80, 24⟩ (by simp)

theorem leaves_setView (t : PaneTree) (i : Nat) (v : PaneView) :
    (t.setView i v).leaves =
      t.leaves.map (fun p => if p.id == i then ⟨p.id, v⟩ else p) := by
  induction t with
  | leaf p =>
    by_cases h : p.id = i <;>
      simp [PaneTree.setView, PaneTree.leaves, h]
  | split d ra rb a b iha ihb =>
    simp [PaneTree.setView, PaneTree.leaves, iha, ihb]

theorem find_id_map_setView (l : List Pane) (i : Nat) (v : PaneView) :
    List.find? (fun q => q.id == i)
        (l.map (fun p => if p.id == i then ⟨p.id, v⟩ else p)) =
      (List.find? (fun q => q.id == i) l).map
        (fun p => (⟨p.id, v⟩ : Pane)) := by
  induction l with
  | nil => rfl
  | cons p t ih =>
    by_cases h : p.id = i
    · simp [List.find?_cons, h]
    · have hb : ¬ ((p.id == i) = true) := by simp [h]
      have hif : (if p.id == i then (⟨p.id, v⟩ : Pane) else p) = p := by
        simp [h]
      rw [List.map_cons, hif,
        @List.find?_cons_of_neg Pane (fun q => q.id == i) p
          (t.map (fun p => if p.id == i then ⟨p.id, v⟩ else p)) hb,
        @List.find?_cons_of_neg Pane (fun q => q.id == i) p t hb, ih]

theorem findLeaf_setView (t : PaneTree) (i : Nat) (v : PaneView) :
    (t.setView i v).findLeaf i =
      (t.findLeaf i).map (fun p => (⟨p.id, v⟩ : Pane)) := by
  unfold PaneTree.findLeaf
  rw [leaves_setView, find_id_map_setView]

theorem force_goto_focused (m : PaneManager) (v : PaneView)
    (h : (m.tree.findLeaf m.focused).isSome = true) :
    ∃ p, (m.force_goto v).get_focused_pane = some p ∧ p.view = v := by
  unfold PaneManager.force_goto PaneManager.get_focused_pane
  dsimp only
  rw [findLeaf_setView]
  cases hq : m.tree.findLeaf m.focused with
  | none => rw [hq] at h; exact absurd h (by decide)
  | some q => exact ⟨⟨q.id, v⟩, rfl, rfl⟩

theorem find_id_of_mem_nodup (l : List Pane) (p : Pane)
    (hnd : (l.map Pane.id).Nodup) (hm : p ∈ l) :
    List.find? (fun q => q.id == p.id) l = some p := by
  induction l with
  | nil => cases hm
  | cons a t ih =>
    rw [List.map_cons, List.nodup_cons] at hnd
    rcases List.mem_cons.mp hm with h | h
    · subst h
      simp [List.find?_cons]
    · have hne : (a.id == p.id) = false := by
        simp only [beq_eq_false_iff_ne, ne_eq]
        intro hc
        exact hnd.1 (hc ▸ List.mem_map_of_mem Pane.id h)
      simp [List.find?_cons, hne, ih hnd.2 h]

theorem force_goto_by_view_focused (m : PaneManager) (v : PaneView)
    (hnd : (m.tree.leaves.map Pane.id).Nodup)
    (h : (m.tree.findLeaf m.focused).isSome = true) :
    ∃ p, (m.force_goto_by_view v).get_focused_pane = some p ∧
      p.view = v := by
  unfold PaneManager.force_goto_by_view
  cases hf : m.tree.leaves.find? (fun p => p.view == v) with
  | none => exact force_goto_focused m v h
  | some p =>
    have hmem : p ∈ m.tree.leaves := List.mem_of_find?_eq_some hf
    have hview : p.view = v := by
      have := List.find?_some hf
      simpa using this
    refine ⟨p, ?_, hview⟩
    show ({ m with focused := p.id } : PaneManager).get_focused_pane = some p
    unfold PaneManager.get_focused_pane PaneTree.findLeaf
    exact find_id_of_mem_nodup m.tree.leaves p hnd hmem

/-- C7: enter_terminal fails with the full-screen error (state unchanged)
when full_screen is true; otherwise it applies force_goto_by_view with the
terminal view to the active profile, after which (for a well-formed
profile) the focused leaf of the active profile displays the terminal
view. -/
theorem C7_enter_terminal_behavior (s : ScreenManager) :
    (s.full_screen = true →
      s.enter_terminal =
        (Except.error "Cannot enter terminal in full screen mode", s)) ∧
    (s.full_screen = false →
      ∀ pm, mapLookup s.panes s.current_pane = some pm →
        s.enter_terminal =
          (Except.ok (),
            s.setCurrentPM (pm.force_goto_by_view PaneView.terminal)) ∧
        (pm.WF →
          ∃ p, s.enter_terminal.2.get_focused_pane = Except.ok p ∧
            p.view = PaneView.terminal)) := by
  constructor
  · intro hf
    unfold ScreenManager.enter_terminal
    rw [if_pos hf]
  · intro hf pm hl
    have hbody : s.enter_terminal =
        (Except.ok (),
          s.setCurrentPM (pm.force_goto_by_view PaneView.terminal)) := by
      unfold ScreenManager.enter_terminal
      rw [if_neg (by rw [hf]; exact Bool.false_ne_true), hl]
    refine ⟨hbody, fun hwf => ?_⟩
    rw [hbody]
    dsimp only
    unfold ScreenManager.get_focused_pane ScreenManager.setCurrentPM
    dsimp only
    rw [mapLookup_insert, if_pos rfl]
    obtain ⟨p, hp, hv⟩ := force_goto_by_view_focused pm PaneView.terminal
      hwf.1 hwf.2
    refine ⟨p, ?_, hv⟩
    dsimp only
    rw [hp]

/-- Witness for C7 at the freshly constructed manager. -/
theorem C7_enter_terminal_behavior_witness :
    ∃ p, ScreenManager.new.enter_terminal.2.get_focused_pane =
      Except.ok p ∧ p.view = PaneView.terminal :=
  ((C7_enter_terminal_behavior ScreenManager.new).2 rfl
    PaneManager.default_small_screen rfl).2 (by constructor <;> decide)

theorem div_part_le (w a b : Nat) : w * a / (a + b) ≤ w := by
  rcases Nat.eq_zero_or_pos (a + b) with h | h
  · rw [h, Nat.div_zero]
    exact Nat.zero_le w
  · calc w * a / (a + b) ≤ w * (a + b) / (a + b) :=
        Nat.div_le_div_right (Nat.mul_le_mul_left w (Nat.le_add_right a b))
    _ = w := Nat.mul_div_cancel w h

theorem splitRect_partition (d : Direction) (ra rb : Nat) (r : Rect) :
    (∀ i j, r.contains i j ↔
      ((splitRect d ra rb r).1.contains i j ∨
        (splitRect d ra rb r).2.contains i j)) ∧
    (∀ i j, ¬((splitRect d ra rb r).1.contains i j ∧
      (splitRect d ra rb r).2.contains i j)) := by
  cases d with
  | horizontal =>
    have hle : r.width * ra / (ra + rb) ≤ r.width := div_part_le _ _ _
    unfold splitRect Rect.contains
    dsimp only
    generalize r.width * ra / (ra + rb) = w1 at hle ⊢
    constructor <;> intro i j <;> omega
  | vertical =>
    have hle : r.height * ra / (ra + rb) ≤ r.height := div_part_le _ _ _
    unfold splitRect Rect.contains
    dsimp only
    generalize r.height * ra / (ra + rb) = h1 at hle ⊢
    constructor <;> intro i j <;> omega

theorem flatten_rect_subset (t : PaneTree) (r : Rect) (foc : Nat)
    (e : PaneFlattened) (he : e ∈ t.flattenAux r foc) (i j : Nat)
    (hij : e.rect.contains i j) : r.contains i j := by
  induction t generalizing r with
  | leaf p =>
    simp only [PaneTree.flattenAux, List.mem_singleton] at he
    rw [he] at hij
    exact hij
  | split d ra rb a b iha ihb =>
    simp only [PaneTree.flattenAux, List.mem_append] at he
    have hpart := (splitRect_partition d ra rb r).1 i j
    rcases he with h | h
    · exact hpart.mpr (Or.inl (iha _ h))
    · exact hpart.mpr (Or.inr (ihb _ h))

theorem flatten_covers (t : PaneTree) (r : Rect) (foc i j : Nat) :
    r.contains i j ↔ ∃ e ∈ t.flattenAux r foc, e.rect.contains i j := by
  induction t generalizing r with
  | leaf p => simp [PaneTree.flattenAux]
  | split d ra rb a b iha ihb =>
    have hpart := (splitRect_partition d ra rb r).1 i j
    simp only [PaneTree.flattenAux, List.mem_append]
    constructor
    · intro h
      rcases hpart.mp h with h1 | h1
      · obtain ⟨e, he, hc⟩ := (iha _).mp h1
        exact ⟨e, Or.inl he, hc⟩
      · obtain ⟨e, he, hc⟩ := (ihb _).mp h1
        exact ⟨e, Or.inr he, hc⟩
    · rintro ⟨e, he | he, hc⟩
      · exact hpart.mpr (Or.inl ((iha _).mpr ⟨e, he, hc⟩))
      · exact hpart.mpr (Or.inr ((ihb _).mpr ⟨e, he, hc⟩))

theorem flatten_disjoint (t : PaneTree) (r : Rect) (foc : Nat) :
    (t.flattenAux r foc).Pairwise EntryDisjoint := by
  induction t generalizing r with
  | leaf p => simp [PaneTree.flattenAux]
  | split d ra rb a b iha ihb =>
    simp only [PaneTree.flattenAux]
    rw [List.pairwise_append]
    refine ⟨iha _, ihb _, ?_⟩
    intro e1 h1 e2 h2 i j hc
    obtain ⟨hc1, hc2⟩ := hc
    have hr1 := flatten_rect_subset a _ foc e1 h1 i j hc1
    have hr2 := flatten_rect_subset b _ foc e2 h2 i j hc2
    exact (splitRect_partition d ra rb r).2 i j ⟨hr1, hr2⟩

/-- C8: for every pane tree and every viewport rectangle, the rectangles
of the flattened layout exactly tile the viewport — every viewport cell is
covered by some entry (and only viewport cells are), no two entries
overlap — and at each split the area is divided along the direction in
proportion to the ratio with the remainder going to the second child, so
the child extents along the split axis sum to the parent's extent and the
perpendicular extent is unchanged. -/
theorem C8_flatten_tiles_viewport (m : PaneManager) (area : Rect) :
    (∀ i j, area.contains i j ↔
      ∃ e ∈ m.get_flattened_layout area, e.rect.contains i j) ∧
    (m.get_flattened_layout area).Pairwise EntryDisjoint ∧
    (∀ ra rb r,
      (splitRect Direction.horizontal ra rb r).1.width =
        r.width * ra / (ra + rb) ∧
      (splitRect Direction.horizontal ra rb r).1.width +
        (splitRect Direction.horizontal ra rb r).2.width = r.width ∧
      (splitRect Direction.horizontal ra rb r).1.height = r.height ∧
      (splitRect Direction.horizontal ra rb r).2.height = r.height ∧
      (splitRect Direction.vertical ra rb r).1.height =
        r.height * ra / (ra + rb) ∧
      (splitRect Direction.vertical ra rb r).1.height +
        (splitRect Direction.vertical ra rb r).2.height = r.height ∧
      (splitRect Direction.vertical ra rb r).1.width = r.width ∧
      (splitRect Direction.vertical ra rb r).2.width = r.width) := by
  refine ⟨fun i j => flatten_covers m.tree area m.focused i j,
    flatten_disjoint m.tree area m.focused, ?_⟩
  intro ra rb r
  have h1 := div_part_le r.width ra rb
  have h2 := div_part_le r.height ra rb
  unfold splitRect
  dsimp only
  exact ⟨rfl, Nat.add_sub_cancel' h1, rfl, rfl, rfl,
    Nat.add_sub_cancel' h2, rfl, rfl⟩

end EDB
